import Mathlib

/-!
Verification of the StayRTR refresh pipeline (`cmd/stayrtr/stayrtr.go`)
against its specification, via a shallow embedding in Lean 4.

Conventions of the embedding:
* Go slices become `List`; a nil slice that the code distinguishes from an
  empty one (`Data == nil`) becomes `Option (List _)`.
* Machine integers become `Nat`/`Int`; the serial counter wraps mod 2^32
  explicitly.
* Time instants are `Int` seconds; `time.Time.IsZero` becomes `Option Int`
  being `none`.
* Fallible steps return an error component; functions doing I/O take the
  I/O outcome as an explicit argument.
* Code of the repository that lives outside `cmd/stayrtr/stayrtr.go`
  (packages `prefixfile`, `lib`, `utils`) is modelled from the spec; each
  such definition says so in its doc comment.
-/

/-- An IP network as produced by prefix parsing (`net.IPNet` after
`GetPrefix2`): address family, masked network address bits, mask length.
`Go`'s `prefix.IP.To4() != nil` test becomes the `v4` flag. -/
structure IPNet where
  v4 : Bool
  addr : Nat
  mlen : Nat
deriving DecidableEq, Repr

/-- Address-family width: 32 for IPv4, 128 for IPv6 (the `max` returned by
`net.IPMask.Size`). -/
def afWidth (p : IPNet) : Nat :=
  if p.v4 then 32 else 128

/-- Modelled from the spec: `prefixfile.VRPJson` (package `prefixfile`, not
under `src/`). The JSON record's textual `prefix` and `asn` fields are
abstracted to the results of their parsers `GetPrefix2` / `GetASN2`
(`none` = unparseable). `length` is the `maxLength` byte. -/
structure VRPJson where
  pfxParse : Option IPNet
  asnParse : Option Nat
  length : Nat
deriving DecidableEq, Repr

/-- `rtr.VRP`: the validated record handed to the RTR server. -/
structure VRP where
  pfx : IPNet
  asn : Nat
  maxLen : Nat
deriving DecidableEq, Repr

/-- `isValidPrefixLength` (stayrtr.go lines 184-192): rejects a prefix when
its mask length is zero, exceeds `maxLength`, or `maxLength` exceeds the
address-family width. -/
def isValidPrefixLength (p : IPNet) (maxLength : Nat) : Bool :=
  if p.mlen == 0 || decide (p.mlen > maxLength) || decide (maxLength > afWidth p)
  then false
  else true

/-- The deduplication key built by `processData`
(`fmt.Sprintf("%s,%d,%d", prefix, asn, v.Length)`): on parsed prefixes the
string is determined by (prefix, asn, length), so the key is that triple. -/
def vrpKey (v : VRP) : IPNet × Nat × Nat :=
  (v.pfx, v.asn, v.maxLen)

/-- The loop of `processData` (stayrtr.go lines 200-244), with the
`filterDuplicates` map threaded as the list `seen` of keys already kept.
Returns (deduped list, IPv4 count, IPv6 count); counting happens before the
duplicate check, exactly as in the source. -/
def processDataAux : List (IPNet × Nat × Nat) → List VRPJson → List VRP × Nat × Nat
  | _, [] => ([], 0, 0)
  | seen, v :: rest =>
    match v.pfxParse, v.asnParse with
    | some p, some a =>
      if isValidPrefixLength p v.length then
        let c4 : Nat := if p.v4 then 1 else 0
        let c6 : Nat := if p.v4 then 0 else 1
        if (p, a, v.length) ∈ seen then
          let r := processDataAux seen rest
          (r.1, c4 + r.2.1, c6 + r.2.2)
        else
          let r := processDataAux ((p, a, v.length) :: seen) rest
          (⟨p, a, v.length⟩ :: r.1, c4 + r.2.1, c6 + r.2.2)
      else
        processDataAux seen rest
    | some _, none => processDataAux seen rest
    | none, _ => processDataAux seen rest

/-- `processData` (stayrtr.go lines 200-244): returns the deduped VRP list,
the total count, the IPv4 count and the IPv6 count of valid entries
(duplicates included in the counts). -/
def processData (l : List VRPJson) : List VRP × Nat × Nat × Nat :=
  let r := processDataAux [] l
  (r.1, r.2.1 + r.2.2, r.2.1, r.2.2)

/-- An input entry survives ingest: both parsers succeed and the length
bounds hold. -/
def entryValid (v : VRPJson) : Bool :=
  match v.pfxParse, v.asnParse with
  | some p, some _ => isValidPrefixLength p v.length
  | some _, none => false
  | none, _ => false

/-- The entry's parsed prefix is IPv4. -/
def entryV4 (v : VRPJson) : Bool :=
  match v.pfxParse with
  | some p => p.v4
  | none => false

/-- The entry's parsed prefix is IPv6. -/
def entryV6 (v : VRPJson) : Bool :=
  match v.pfxParse with
  | some p => !p.v4
  | none => false

/-- The deduped-IPv4 count computed by `updateFromNewState` over the output
list (stayrtr.go lines 306-314). -/
def countV4vrps (l : List VRP) : Nat :=
  (l.filter (fun v => v.pfx.v4)).length

/-- The deduped-IPv6 count computed by `updateFromNewState` over the output
list (stayrtr.go lines 306-314). -/
def countV6vrps (l : List VRP) : Nat :=
  (l.filter (fun v => !v.pfx.v4)).length

/-- The prefix 10.0.0.0/24. -/
def pfx24 : IPNet := ⟨true, 167772160, 24⟩

/-- The entry `10.0.0.0/24,AS1,24`. -/
def entryA : VRPJson := ⟨some pfx24, some 1, 24⟩

/-- The entry `10.0.0.0/24,AS1,25`. -/
def entryB : VRPJson := ⟨some pfx24, some 1, 25⟩

/-- The dedup boundary scenario input: `10.0.0.0/24,AS1,24` twice and
`10.0.0.0/24,AS1,25` once. -/
def dedupInput : List VRPJson := [entryA, entryA, entryB]

lemma processDataAux_count4 (l : List VRPJson) :
    ∀ seen, (processDataAux seen l).2.1 =
      (l.filter (fun v => entryValid v && entryV4 v)).length := by
  induction l with
  | nil => intro seen; rfl
  | cons v rest ih =>
    intro seen
    cases hp : v.pfxParse with
    | none => simp [processDataAux, List.filter_cons, entryValid, entryV4, hp, ih]
    | some p =>
      cases ha : v.asnParse with
      | none => simp [processDataAux, List.filter_cons, entryValid, entryV4, hp, ha, ih]
      | some a =>
        by_cases hv : isValidPrefixLength p v.length
        · by_cases hmem : (p, a, v.length) ∈ seen <;>
            by_cases h4 : p.v4 <;>
            simp [processDataAux, List.filter_cons, entryValid, entryV4, hp, ha, hv,
              hmem, h4, ih] <;>
            omega
        · simp [processDataAux, List.filter_cons, entryValid, entryV4, hp, ha,
            Bool.eq_false_iff.mpr hv, hv, ih]

lemma processDataAux_count6 (l : List VRPJson) :
    ∀ seen, (processDataAux seen l).2.2 =
      (l.filter (fun v => entryValid v && entryV6 v)).length := by
  induction l with
  | nil => intro seen; rfl
  | cons v rest ih =>
    intro seen
    cases hp : v.pfxParse with
    | none => simp [processDataAux, List.filter_cons, entryValid, entryV6, hp, ih]
    | some p =>
      cases ha : v.asnParse with
      | none => simp [processDataAux, List.filter_cons, entryValid, entryV6, hp, ha, ih]
      | some a =>
        by_cases hv : isValidPrefixLength p v.length
        · by_cases hmem : (p, a, v.length) ∈ seen <;>
            by_cases h4 : p.v4 <;>
            simp [processDataAux, List.filter_cons, entryValid, entryV6, hp, ha, hv,
              hmem, h4, ih] <;>
            omega
        · simp [processDataAux, List.filter_cons, entryValid, entryV6, hp, ha,
            Bool.eq_false_iff.mpr hv, hv, ih]

lemma processDataAux_keys_fresh (l : List VRPJson) :
    ∀ seen, ((processDataAux seen l).1.map vrpKey).Nodup ∧
      ∀ k ∈ (processDataAux seen l).1.map vrpKey, k ∉ seen := by
  induction l with
  | nil => intro seen; simp [processDataAux]
  | cons v rest ih =>
    intro seen
    cases hp : v.pfxParse with
    | none => simpa [processDataAux, hp] using ih seen
    | some p =>
      cases ha : v.asnParse with
      | none => simpa [processDataAux, hp, ha] using ih seen
      | some a =>
        by_cases hv : isValidPrefixLength p v.length
        · by_cases hmem : (p, a, v.length) ∈ seen
          · simpa [processDataAux, hp, ha, hv, hmem] using ih seen
          · have ihk := ih ((p, a, v.length) :: seen)
            have hres1 : (processDataAux seen (v :: rest)).1 =
                ⟨p, a, v.length⟩ :: (processDataAux ((p, a, v.length) :: seen) rest).1 := by
              simp [processDataAux, hp, ha, hv, hmem]
            rw [hres1, List.map_cons]
            constructor
            · rw [List.nodup_cons]
              refine ⟨fun hin => ?_, ihk.1⟩
              exact (ihk.2 _ hin) (List.mem_cons_self _ _)
            · intro k hk
              rcases List.mem_cons.mp hk with hk1 | hk1
              · subst hk1
                exact hmem
              · exact fun hks => ihk.2 k hk1 (List.mem_cons_of_mem _ hks)
        · simpa [processDataAux, hp, ha, hv] using ih seen

lemma processDataAux_mem_valid (l : List VRPJson) :
    ∀ seen, ∀ vrp ∈ (processDataAux seen l).1,
      isValidPrefixLength vrp.pfx vrp.maxLen = true := by
  induction l with
  | nil => intro seen vrp h; simp [processDataAux] at h
  | cons v rest ih =>
    intro seen vrp hmemv
    cases hp : v.pfxParse with
    | none =>
      rw [show processDataAux seen (v :: rest) = processDataAux seen rest by
        simp [processDataAux, hp]] at hmemv
      exact ih seen vrp hmemv
    | some p =>
      cases ha : v.asnParse with
      | none =>
        rw [show processDataAux seen (v :: rest) = processDataAux seen rest by
          simp [processDataAux, hp, ha]] at hmemv
        exact ih seen vrp hmemv
      | some a =>
        by_cases hv : isValidPrefixLength p v.length
        · by_cases hmem : (p, a, v.length) ∈ seen
          · rw [show (processDataAux seen (v :: rest)).1 = (processDataAux seen rest).1 by
              simp [processDataAux, hp, ha, hv, hmem]] at hmemv
            exact ih seen vrp hmemv
          · simp only [processDataAux, hp, ha, hv, if_true, hmem, if_false,
              List.mem_cons] at hmemv
            rcases hmemv with h | h
            · subst h
              exact hv
            · exact ih _ vrp h
        · rw [show processDataAux seen (v :: rest) = processDataAux seen rest by
            simp [processDataAux, hp, ha, hv]] at hmemv
          exact ih seen vrp hmemv

lemma processData_invalid_cons (v : VRPJson) (l : List VRPJson)
    (h : entryValid v = false) : processData (v :: l) = processData l := by
  unfold processData
  have hskip : processDataAux [] (v :: l) = processDataAux [] l := by
    cases hp : v.pfxParse with
    | none => simp [processDataAux, hp]
    | some p =>
      cases ha : v.asnParse with
      | none => simp [processDataAux, hp, ha]
      | some a =>
        simp only [entryValid, hp, ha] at h
        simp [processDataAux, hp, ha, h]
  rw [hskip]

lemma isValidPrefixLength_iff (p : IPNet) (m : Nat) :
    isValidPrefixLength p m = true ↔ 0 < p.mlen ∧ p.mlen ≤ m ∧ m ≤ afWidth p := by
  unfold isValidPrefixLength
  split <;> rename_i h <;>
    simp only [Bool.or_eq_true, beq_iff_eq, decide_eq_true_eq, not_or] at h <;>
    simp <;> omega

/-- C1: `processData` deduplicates by the identity triple
(prefix, asn, max_length) — the keys of the returned list are pairwise
distinct — while the returned IPv4 and IPv6 totals count every valid entry
including duplicates; on the input holding `10.0.0.0/24,AS1,24` twice and
`10.0.0.0/24,AS1,25` once, the output has exactly two VRPs, the raw v4
count is 3, and the deduped v4 count computed over the output is 2. -/
theorem C1_processData_dedup :
    (∀ l : List VRPJson, ((processData l).1.map vrpKey).Nodup)
    ∧ (∀ l : List VRPJson,
        (processData l).2.2.1 = (l.filter (fun v => entryValid v && entryV4 v)).length
        ∧ (processData l).2.2.2 = (l.filter (fun v => entryValid v && entryV6 v)).length)
    ∧ ((processData dedupInput).1.length = 2
        ∧ (processData dedupInput).2.2.1 = 3
        ∧ countV4vrps (processData dedupInput).1 = 2) := by
  refine ⟨fun l => (processDataAux_keys_fresh l []).1,
    fun l => ⟨processDataAux_count4 l [], processDataAux_count6 l []⟩,
    by decide⟩

/-- C2: every VRP returned by `processData` satisfies
0 < network_length ≤ max_length ≤ address-family width (32 for IPv4, 128
for IPv6); an entry failing prefix or ASN parsing or the length bound is
rejected at ingest and contributes nothing to the result. -/
theorem C2_output_bounds :
    (∀ (l : List VRPJson) (vrp : VRP), vrp ∈ (processData l).1 →
        0 < vrp.pfx.mlen ∧ vrp.pfx.mlen ≤ vrp.maxLen ∧ vrp.maxLen ≤ afWidth vrp.pfx)
    ∧ (∀ (v : VRPJson) (l : List VRPJson), entryValid v = false →
        processData (v :: l) = processData l) := by
  constructor
  · intro l vrp hmem
    exact (isValidPrefixLength_iff _ _).mp (processDataAux_mem_valid l [] vrp hmem)
  · exact processData_invalid_cons

/-- Witness for C2 at a concrete member of a concrete output and a concrete
rejected entry. -/
theorem C2_output_bounds_witness :
    (0 < (⟨pfx24, 1, 24⟩ : VRP).pfx.mlen
      ∧ (⟨pfx24, 1, 24⟩ : VRP).pfx.mlen ≤ (⟨pfx24, 1, 24⟩ : VRP).maxLen
      ∧ (⟨pfx24, 1, 24⟩ : VRP).maxLen ≤ afWidth (⟨pfx24, 1, 24⟩ : VRP).pfx)
    ∧ processData (⟨none, some 1, 24⟩ :: dedupInput) = processData dedupInput :=
  ⟨C2_output_bounds.1 dedupInput ⟨pfx24, 1, 24⟩ (by decide),
   C2_output_bounds.2 ⟨none, some 1, 24⟩ dedupInput (by decide)⟩

/-- Modelled from the spec: `prefixfile.SlurmConfig` (RFC 8416, package
`prefixfile`, not under `src/`). The per-record filter match is abstracted
to a boolean predicate `passes` (true = the record passes the filters, i.e.
is not matched by any `prefixFilters` entry); `assertions` holds the
records produced from `locallyAddedAssertions.prefixAssertions`. -/
structure SlurmConfig where
  passes : VRPJson → Bool
  assertions : List VRPJson

/-- Modelled from the spec: `FilterOnVRPs` returns (kept, removed) — the
input partitioned into the records passing the filters and the rest. -/
def FilterOnVRPs (c : SlurmConfig) (l : List VRPJson) : List VRPJson × List VRPJson :=
  (l.filter c.passes, l.filter (fun v => !c.passes v))

/-- Modelled from the spec: `AssertVRPs` returns the asserted records. -/
def AssertVRPs (c : SlurmConfig) : List VRPJson :=
  c.assertions

/-- Metadata of a VRP JSON document (`prefixfile.MetaData`): the upstream
count and the `buildtime` field, abstracted to the result of parsing it as
RFC3339 (`none` = unparseable) in seconds. -/
structure MetaData where
  counts : Nat
  buildtime : Option Int
deriving DecidableEq, Repr

/-- `prefixfile.VRPList`: a decoded VRP JSON document. `data = none`
models a nil `Data` slice (the `vrpsjson == nil` test in
`updateFromNewState`). -/
structure VRPList where
  metadata : MetaData
  data : Option (List VRPJson)
deriving DecidableEq, Repr

/-- Modelled from the spec: the RTR server's VRP set manager (`rtr.Server`,
package `lib`, not under `src/`). `AddVRPs`/install replaces the current
set and advances the 32-bit serial iff the set changed; `installs` counts
`AddVRPs` calls and `notifs` counts `NotifyClientsLatest` broadcasts, so
that theorems can speak about these effects. -/
structure ServerModel where
  sessionId : Nat
  serial : Nat
  vrps : List VRP
  installs : Nat
  notifs : Nat
deriving DecidableEq, Repr

/-- Set equality of VRP lists (mutual containment), the no-op test of the
spec's `install`. -/
def vrpSetEq (a b : List VRP) : Bool :=
  a.all (fun x => b.contains x) && b.all (fun x => a.contains x)

/-- Modelled from the spec: `install(newSet)` — replace the snapshot,
allocate the next serial (mod 2^32) iff the set changed. -/
def AddVRPs (sv : ServerModel) (l : List VRP) : ServerModel :=
  { sv with
    vrps := l
    serial := if vrpSetEq l sv.vrps then sv.serial else (sv.serial + 1) % 4294967296
    installs := sv.installs + 1 }

/-- Modelled from the spec: `NotifyClientsLatest` broadcasts a Serial
Notify; the model records the broadcast. -/
def notifyClientsLatest (sv : ServerModel) : ServerModel :=
  { sv with notifs := sv.notifs + 1 }

/-- The gauges set by `metricsEvent.UpdateMetrics` (stayrtr.go lines
490-496): raw and deduped v4/v6 VRP totals and the last-change stamp. -/
structure MetricsModel where
  v4raw : Nat
  v6raw : Nat
  v4uniq : Nat
  v6uniq : Nat
  lastch : Option Int
deriving DecidableEq, Repr

/-- The `state` struct of stayrtr.go (lines 447-467). `lastchange` and
`lastts` are `none` while still the zero time; `metricsEnabled` models
`metricsEvent != nil`; the fetch configuration is external and omitted. -/
structure State where
  lastdata : VRPList
  lasthash : Option Nat
  lastchange : Option Int
  lastts : Option Int
  sendNotifs : Bool
  server : ServerModel
  metricsEnabled : Bool
  metrics : MetricsModel
  exported : VRPList
  slurm : Option SlurmConfig
  checktime : Bool

/-- Errors returned by `updateFromNewState`: the RFC3339 parse error of
`buildtime`, or the staleness error for documents older than 24 hours. -/
inductive StateErr where
  | parseFail
  | stale
deriving DecidableEq, Repr

/-- The `checktime` guard of `updateFromNewState` (stayrtr.go lines
263-272): when enabled, fail if `buildtime` does not parse or `now` is
after `buildtime + 24h` (86400 s). -/
def staleCheck (s : State) (now : Int) : Option StateErr :=
  if s.checktime then
    match s.lastdata.metadata.buildtime with
    | none => some .parseFail
    | some bt => if now > bt + 86400 then some .stale else none
  else none

/-- The SLURM step of `updateFromNewState` (stayrtr.go lines 274-279): the
kept records followed by the asserted records; without a SLURM config the
input is unchanged. -/
def postSlurm (sl : Option SlurmConfig) (l : List VRPJson) : List VRPJson :=
  match sl with
  | none => l
  | some cfg => (FilterOnVRPs cfg l).1 ++ AssertVRPs cfg

/-- `updateFromNewState` (stayrtr.go lines 255-319): returns the error (if
any) and the state after the run, with `time.Now()` passed as `now`. -/
def updateFromNewState (s : State) (now : Int) : Option StateErr × State :=
  match s.lastdata.data with
  | none => (none, s)
  | some vrpsjson0 =>
    match staleCheck s now with
    | some e => (some e, s)
    | none =>
      let vrpsjson := postSlurm s.slurm vrpsjson0
      let pd := processData vrpsjson
      let server1 := AddVRPs s.server pd.1
      let server2 := if s.sendNotifs then notifyClientsLatest server1 else server1
      let exported : VRPList :=
        { metadata := { counts := vrpsjson.length
                        buildtime := s.lastdata.metadata.buildtime }
          data := some vrpsjson }
      let metrics :=
        if s.metricsEnabled then
          { v4raw := pd.2.2.1, v6raw := pd.2.2.2,
            v4uniq := countV4vrps pd.1, v6uniq := countV6vrps pd.1,
            lastch := s.lastchange }
        else s.metrics
      (none, { s with server := server2, exported := exported, metrics := metrics })

/-- The export HTTP handler `exporter` (stayrtr.go lines 439-445): encodes
the stored `exported` document. -/
def exporter (s : State) : VRPList :=
  s.exported

/-- C10: when no VRP document has been decoded yet (`lastdata.Data` nil),
`updateFromNewState` returns without error and changes nothing. -/
theorem C10_nil_data_noop (s : State) (now : Int) (h : s.lastdata.data = none) :
    updateFromNewState s now = (none, s) := by
  simp [updateFromNewState, h]

/-- C4: with `checktime` enabled, a document whose `buildtime` fails to
parse or is older than 24 hours makes `updateFromNewState` return an error
with the state unchanged (no install, no notification, no export change). -/
theorem C4_stale_rejects (s : State) (now : Int) (l : List VRPJson)
    (hdata : s.lastdata.data = some l) (hct : s.checktime = true)
    (hstale : s.lastdata.metadata.buildtime = none ∨
      ∃ bt, s.lastdata.metadata.buildtime = some bt ∧ now > bt + 86400) :
    ∃ e, updateFromNewState s now = (some e, s) := by
  rcases hstale with h | ⟨bt, hbt, hgt⟩
  · exact ⟨.parseFail, by simp [updateFromNewState, staleCheck, hdata, hct, h]⟩
  · exact ⟨.stale, by simp [updateFromNewState, staleCheck, hdata, hct, hbt, hgt]⟩

/-- C3: with a SLURM configuration loaded, `updateFromNewState` filters
first and appends assertions afterwards: the exported list is
`kept ++ asserted` and the server is given exactly `processData` of that
list — asserted records never go through the filter. -/
theorem C3_slurm_filter_before_assert (s : State) (now : Int) (cfg : SlurmConfig)
    (l : List VRPJson) (hs : s.slurm = some cfg) (hdata : s.lastdata.data = some l)
    (hok : (updateFromNewState s now).1 = none) :
    (updateFromNewState s now).2.exported.data =
      some ((FilterOnVRPs cfg l).1 ++ AssertVRPs cfg)
    ∧ (updateFromNewState s now).2.server.vrps =
      (processData ((FilterOnVRPs cfg l).1 ++ AssertVRPs cfg)).1 := by
  cases hchk : staleCheck s now with
  | some e => simp [updateFromNewState, hdata, hchk] at hok
  | none =>
    cases hsn : s.sendNotifs <;>
      simp [updateFromNewState, hdata, hchk, postSlurm, hs, hsn,
        AddVRPs, notifyClientsLatest]

/-- C7: after a successful run of `updateFromNewState` on a decoded
document, the exported JSON has `counts` equal to the length of the
post-SLURM list, `buildtime` copied from the document, and `data` equal to
the post-SLURM list; and the export handler returns exactly the stored
value. -/
theorem C7_export_shape (s : State) (now : Int) (l : List VRPJson)
    (hdata : s.lastdata.data = some l)
    (hok : (updateFromNewState s now).1 = none) :
    (updateFromNewState s now).2.exported =
      { metadata := { counts := (postSlurm s.slurm l).length
                      buildtime := s.lastdata.metadata.buildtime }
        data := some (postSlurm s.slurm l) }
    ∧ exporter (updateFromNewState s now).2 = (updateFromNewState s now).2.exported := by
  cases hchk : staleCheck s now with
  | some e => simp [updateFromNewState, hdata, hchk] at hok
  | none => simp [updateFromNewState, exporter, hdata, hchk]

/-- A concrete SLURM configuration for witnesses: keeps records with
max_length 24, asserts `entryB`. -/
def slurmCfgW : SlurmConfig := ⟨fun v => v.length == 24, [entryB]⟩

/-- A concrete state with a decoded document and a SLURM configuration. -/
def stateW : State :=
  { lastdata := ⟨⟨2, some 0⟩, some [entryA, entryB]⟩
    lasthash := some 7
    lastchange := some 50
    lastts := some 50
    sendNotifs := true
    server := ⟨1, 0, [], 0, 0⟩
    metricsEnabled := true
    metrics := ⟨0, 0, 0, 0, none⟩
    exported := ⟨⟨0, none⟩, none⟩
    slurm := some slurmCfgW
    checktime := false }

/-- Witness for C3 at the concrete state `stateW`. -/
theorem C3_slurm_filter_before_assert_witness :
    (updateFromNewState stateW 100).2.exported.data =
      some ((FilterOnVRPs slurmCfgW [entryA, entryB]).1 ++ AssertVRPs slurmCfgW)
    ∧ (updateFromNewState stateW 100).2.server.vrps =
      (processData ((FilterOnVRPs slurmCfgW [entryA, entryB]).1 ++ AssertVRPs slurmCfgW)).1 :=
  C3_slurm_filter_before_assert stateW 100 slurmCfgW [entryA, entryB] rfl rfl rfl

/-- Witness for C7 at the concrete state `stateW`. -/
theorem C7_export_shape_witness :
    (updateFromNewState stateW 100).2.exported =
      { metadata := { counts := (postSlurm stateW.slurm [entryA, entryB]).length
                      buildtime := stateW.lastdata.metadata.buildtime }
        data := some (postSlurm stateW.slurm [entryA, entryB]) }
    ∧ exporter (updateFromNewState stateW 100).2 = (updateFromNewState stateW 100).2.exported :=
  C7_export_shape stateW 100 [entryA, entryB] rfl rfl

/-- A concrete state holding a stale document (buildtime 0, checked at time
100000 > 86400 seconds later). -/
def staleStateW : State :=
  { stateW with
    checktime := true
    slurm := none
    lastdata := ⟨⟨1, some 0⟩, some [entryA]⟩ }

/-- Witness for C4 at the concrete stale state. -/
theorem C4_stale_rejects_witness :
    ∃ e, updateFromNewState staleStateW 100000 = (some e, staleStateW) :=
  C4_stale_rejects staleStateW 100000 [entryA] rfl rfl
    (Or.inr ⟨0, rfl, by norm_num⟩)

/-- A concrete state with no decoded document. -/
def nilStateW : State :=
  { stateW with lastdata := ⟨⟨0, none⟩, none⟩ }

/-- Witness for C10 at the concrete nil-data state. -/
theorem C10_nil_data_noop_witness :
    updateFromNewState nilStateW 5 = (none, nilStateW) :=
  C10_nil_data_noop nilStateW 5 rfl

/-- Modelled from the spec: the failures of `utils.FetchConfig.FetchFile`
(package `utils`, not under `src/`): an HTTP failure, a 304 Not Modified,
or an identical ETag. -/
inductive FetchErr where
  | httpFail
  | notModified
  | identicalEtag
deriving DecidableEq, Repr

/-- A fetched response body: `raw` stands for the byte string (input of the
SHA-256 digest) and `decoded` for the result of `decodeJSON` on it
(`none` = JSON decode failure). -/
structure Body where
  raw : Nat
  decoded : Option VRPList
deriving DecidableEq, Repr

/-- The errors `updateFile` can return: a fetch failure, the
`IdenticalFile` early end, or a JSON decode failure. -/
inductive FileErr where
  | fetchFail (e : FetchErr)
  | identicalFile
  | decodeFail
deriving DecidableEq, Repr

/-- `newSHA256` (stayrtr.go lines 170-173). The digest is abstracted to the
body itself: the code uses it only through equality comparison with the
previously stored digest. -/
def newSHA256 (d : Nat) : Nat :=
  d

/-- `updateFile` (stayrtr.go lines 321-356): `now` is `time.Now()` and `fr`
the outcome of `FetchFile`. Returns the (bool, error) pair of the source
and the state after the run. `lastts` is set before fetching, on every
path, exactly as in the source. -/
def updateFile (s : State) (now : Int) (fr : Except FetchErr Body) :
    (Bool × Option FileErr) × State :=
  let s1 := { s with lastts := some now }
  match fr with
  | .error e => ((false, some (.fetchFail e)), s1)
  | .ok body =>
    let hsum := newSHA256 body.raw
    if s1.lasthash == some hsum then
      ((false, some .identicalFile), s1)
    else
      match body.decoded with
      | none => ((false, some .decodeFail), s1)
      | some vl =>
        ((true, none),
          { s1 with lasthash := some hsum, lastchange := some now, lastdata := vl })

/-- C5: whenever `updateFile` fails — fetch error, identical SHA-256
digest, or JSON decode failure — it returns false and leaves `lastdata`,
`lasthash` and `lastchange` unchanged; it returns no error exactly when all
three steps succeed, and only then are those fields updated. An identical
digest of a fetched body yields precisely the `IdenticalFile` error. -/
theorem C5_updateFile_preserves (s : State) (now : Int) (fr : Except FetchErr Body) :
    ((updateFile s now fr).1.2 ≠ none →
      (updateFile s now fr).1.1 = false
      ∧ (updateFile s now fr).2.lastdata = s.lastdata
      ∧ (updateFile s now fr).2.lasthash = s.lasthash
      ∧ (updateFile s now fr).2.lastchange = s.lastchange)
    ∧ ((updateFile s now fr).1.2 = none →
      (updateFile s now fr).1.1 = true
      ∧ ∃ body vl, fr = .ok body ∧ body.decoded = some vl
        ∧ s.lasthash ≠ some (newSHA256 body.raw)
        ∧ (updateFile s now fr).2.lastdata = vl
        ∧ (updateFile s now fr).2.lasthash = some (newSHA256 body.raw)
        ∧ (updateFile s now fr).2.lastchange = some now)
    ∧ (∀ body, fr = .ok body → s.lasthash = some (newSHA256 body.raw) →
      (updateFile s now fr).1.2 = some .identicalFile) := by
  match fr with
  | .error e => simp [updateFile]
  | .ok body =>
    by_cases hh : s.lasthash = some (newSHA256 body.raw)
    · simp [updateFile, hh]
    · cases hd : body.decoded with
      | none =>
        simp [updateFile, hd, Ne.symm hh, hh]
      | some vl =>
        simp [updateFile, hd, Ne.symm hh, hh]

/-- A concrete decodable document for the C5 witness. -/
def bodyW : Body := ⟨9, some ⟨⟨1, some 0⟩, some [entryA]⟩⟩

/-- Witness for C5: a fetch failure preserves the three fields, a
successful fetch+decode updates them, and an identical digest is reported
as `IdenticalFile`. -/
theorem C5_updateFile_preserves_witness :
    ((updateFile stateW 3 (.error .httpFail)).1.1 = false
      ∧ (updateFile stateW 3 (.error .httpFail)).2.lastdata = stateW.lastdata
      ∧ (updateFile stateW 3 (.error .httpFail)).2.lasthash = stateW.lasthash
      ∧ (updateFile stateW 3 (.error .httpFail)).2.lastchange = stateW.lastchange)
    ∧ ((updateFile stateW 3 (.ok bodyW)).1.1 = true
      ∧ ∃ body vl, (Except.ok bodyW : Except FetchErr Body) = .ok body
        ∧ body.decoded = some vl
        ∧ stateW.lasthash ≠ some (newSHA256 body.raw)
        ∧ (updateFile stateW 3 (.ok bodyW)).2.lastdata = vl
        ∧ (updateFile stateW 3 (.ok bodyW)).2.lasthash = some (newSHA256 body.raw)
        ∧ (updateFile stateW 3 (.ok bodyW)).2.lastchange = some 3)
    ∧ (updateFile stateW 3 (.ok ⟨7, some ⟨⟨1, some 0⟩, some [entryA]⟩⟩)).1.2 =
        some .identicalFile :=
  ⟨(C5_updateFile_preserves stateW 3 (.error .httpFail)).1 (by decide),
   (C5_updateFile_preserves stateW 3 (.ok bodyW)).2.1 (by decide),
   (C5_updateFile_preserves stateW 3 (.ok ⟨7, some ⟨⟨1, some 0⟩, some [entryA]⟩⟩)).2.2
     ⟨7, some ⟨⟨1, some 0⟩, some [entryA]⟩⟩ rfl (by decide)⟩

/-- `updateSlurm` (stayrtr.go lines 358-379): `fr` is the `FetchFile`
outcome with the body abstracted to the result of `DecodeJSONSlurm`
(`none` = decode failure). On success the SLURM config is replaced. -/
def updateSlurm (s : State) (fr : Except FetchErr (Option SlurmConfig)) :
    (Bool × Option FileErr) × State :=
  match fr with
  | .error e => ((false, some (.fetchFail e)), s)
  | .ok dec =>
    match dec with
    | none => ((false, some .decodeFail), s)
    | some cfg => ((true, none), { s with slurm := some cfg })

/-- The external inputs of one iteration of the refresh loop: the current
time, whether a SLURM file is configured, and the two fetch outcomes. -/
structure CycleInput where
  now : Int
  slurmFile : Bool
  slurmFetch : Except FetchErr (Option SlurmConfig)
  cacheFetch : Except FetchErr Body

/-- One iteration of `routineUpdate` after the wait (stayrtr.go lines
399-435): optional SLURM refresh, cache refresh, and
`updateFromNewState` only when the cache or the SLURM file was updated. -/
def routineCycle (s : State) (inp : CycleInput) : State :=
  let su := if inp.slurmFile then updateSlurm s inp.slurmFetch else ((false, none), s)
  let cu := updateFile su.2 inp.now inp.cacheFetch
  if cu.1.1 || su.1.1 then (updateFromNewState cu.2 inp.now).2 else cu.2

/-- The wait chosen at the top of each `routineUpdate` iteration
(stayrtr.go lines 386-392): 30 seconds while `lastchange` is still the
zero time, the configured interval afterwards. -/
def refreshDelay (interval : Nat) (s : State) : Nat :=
  if s.lastchange = none then 30 else interval

/-- Once any install has happened, and whenever a document is decoded,
`lastchange` is set. -/
def InstallImpliesChange (s : State) : Prop :=
  (s.server.installs > 0 → s.lastchange ≠ none)
  ∧ (s.lastdata.data ≠ none → s.lastchange ≠ none)

lemma updateSlurm_frame (s : State) (fr : Except FetchErr (Option SlurmConfig)) :
    (updateSlurm s fr).2.lastchange = s.lastchange
    ∧ (updateSlurm s fr).2.lastdata = s.lastdata
    ∧ (updateSlurm s fr).2.server = s.server := by
  match fr with
  | .error e => simp [updateSlurm]
  | .ok none => simp [updateSlurm]
  | .ok (some cfg) => simp [updateSlurm]

lemma updateFile_frame (s : State) (now : Int) (fr : Except FetchErr Body) :
    (updateFile s now fr).2.server = s.server
    ∧ ((updateFile s now fr).1.1 = true →
        (updateFile s now fr).2.lastchange = some now)
    ∧ ((updateFile s now fr).1.1 = false →
        (updateFile s now fr).2.lastchange = s.lastchange
        ∧ (updateFile s now fr).2.lastdata = s.lastdata) := by
  match fr with
  | .error e => simp [updateFile]
  | .ok body =>
    by_cases hh : s.lasthash = some (newSHA256 body.raw)
    · simp [updateFile, hh]
    · cases hd : body.decoded with
      | none => simp [updateFile, hd, hh]
      | some vl => simp [updateFile, hd, hh]

lemma updateFromNewState_frame (s : State) (now : Int) :
    (updateFromNewState s now).2.lastchange = s.lastchange
    ∧ (updateFromNewState s now).2.lastdata = s.lastdata
    ∧ (s.lastdata.data = none → (updateFromNewState s now).2.server = s.server) := by
  cases hd : s.lastdata.data with
  | none => simp [updateFromNewState, hd]
  | some l =>
    cases hchk : staleCheck s now with
    | some e => simp [updateFromNewState, hd, hchk]
    | none =>
      cases hsn : s.sendNotifs <;>
        simp [updateFromNewState, hd, hchk, hsn]

/-- The claim's amendment, part 3: one refresh-loop iteration preserves
`InstallImpliesChange`. -/
lemma routineCycle_preserves_inv (s : State) (inp : CycleInput)
    (hinv : InstallImpliesChange s) : InstallImpliesChange (routineCycle s inp) := by
  unfold routineCycle
  obtain ⟨hs1, hs2, hs3⟩ :=
    updateSlurm_frame s inp.slurmFetch
  set s1 := (if inp.slurmFile then updateSlurm s inp.slurmFetch else ((false, none), s)).2
    with hs1def
  have hframe1 : s1.lastchange = s.lastchange ∧ s1.lastdata = s.lastdata
      ∧ s1.server = s.server := by
    by_cases h : inp.slurmFile <;> simp [hs1def, h, hs1, hs2, hs3]
  obtain ⟨hf1c, hf1d, hf1s⟩ := hframe1
  obtain ⟨hu1, hu2, hu3⟩ := updateFile_frame s1 inp.now inp.cacheFetch
  set s2 := (updateFile s1 inp.now inp.cacheFetch).2 with hs2def
  obtain ⟨hn1, hn2, hn3⟩ := updateFromNewState_frame s2 inp.now
  by_cases hcu : (updateFile s1 inp.now inp.cacheFetch).1.1 = true
  · -- the cache was updated: lastchange is freshly set
    have hch : s2.lastchange = some inp.now := hu2 hcu
    constructor <;> intro _ <;>
      simp_all [InstallImpliesChange]
  · have hcu2 : (updateFile s1 inp.now inp.cacheFetch).1.1 = false :=
      Bool.eq_false_iff.mpr hcu
    obtain ⟨hch, hdat⟩ := hu3 hcu2
    have hch2 : s2.lastchange = s.lastchange := by rw [hch, hf1c]
    have hdat2 : s2.lastdata = s.lastdata := by rw [hdat, hf1d]
    have hsrv2 : s2.server = s.server := by rw [hu1, hf1s]
    by_cases hcond : ((updateFile s1 inp.now inp.cacheFetch).1.1
        || (if inp.slurmFile then updateSlurm s inp.slurmFetch
              else ((false, none), s)).1.1) = true
    · rw [if_pos hcond]
      cases hd : s.lastdata.data with
      | none =>
        have hsrv3 := hn3 (by rw [hdat2, hd])
        constructor
        · intro hi
          rw [hn1, hch2]
          apply hinv.1
          rwa [hsrv3, hsrv2] at hi
        · intro hd3
          rw [hn1, hch2]
          apply hinv.2
          rwa [hn2, hdat2] at hd3
      | some l =>
        have hlc : s.lastchange ≠ none := hinv.2 (by rw [hd]; exact fun h => by cases h)
        constructor <;> intro _ <;> rw [hn1, hch2] <;> exact hlc
    · rw [if_neg (by simpa using hcond)]
      constructor
      · intro hi
        rw [hch2]
        apply hinv.1
        rwa [hsrv2] at hi
      · intro hd3
        rw [hch2]
        apply hinv.2
        rwa [hdat2] at hd3

/-- The state at process start (`run`, stayrtr.go lines 546-555): nothing
fetched, `lastchange` zero, no install performed. -/
def freshState : State :=
  { lastdata := ⟨⟨0, none⟩, none⟩
    lasthash := none
    lastchange := none
    lastts := none
    sendNotifs := true
    server := ⟨1, 0, [], 0, 0⟩
    metricsEnabled := false
    metrics := ⟨0, 0, 0, 0, none⟩
    exported := ⟨⟨0, none⟩, none⟩
    slurm := none
    checktime := true }

/-- A cycle input at time 100000 with no SLURM file whose cache fetch
succeeds and decodes into a document with `buildtime` 0 — more than 24
hours (86400 s) in the past, so `checktime` rejects it after the decode. -/
def cycleInpCE : CycleInput :=
  ⟨100000, false, .ok none, .ok ⟨1, some ⟨⟨0, some 0⟩, some []⟩⟩⟩

/-- C6 counterexample: starting from the fresh state, one refresh cycle
whose document decodes but is rejected as stale performs no install
(`AddVRPs` is never called), yet the next wait is the configured 600 s
interval rather than the forced 30 s — refuting "the wait is forced to 30
seconds if and only if no install has yet succeeded". -/
theorem C6_counterexample :
    (routineCycle freshState cycleInpCE).server.installs = 0
    ∧ refreshDelay 600 (routineCycle freshState cycleInpCE) ≠ 30 := by
  constructor
  · rfl
  · decide

/-- C6 (amended): the wait is forced to 30 seconds if and only if no
fetch-and-decode has yet succeeded (`lastchange` still the zero time).
Every install happens with `lastchange` already set — `routineCycle`
preserves `InstallImpliesChange`, which holds at startup — so once an
install has succeeded the wait is the configured refresh interval; but the
wait can already be the refresh interval before any successful install
(see the counterexample: a decoded document rejected as stale). -/
theorem C6_delay_iff_lastchange :
    (∀ (interval : Nat) (s : State), s.lastchange = none →
        refreshDelay interval s = 30)
    ∧ (∀ (interval : Nat) (s : State), s.lastchange ≠ none →
        refreshDelay interval s = interval)
    ∧ (∀ (s : State) (inp : CycleInput), InstallImpliesChange s →
        InstallImpliesChange (routineCycle s inp))
    ∧ InstallImpliesChange freshState := by
  refine ⟨?_, ?_, routineCycle_preserves_inv, ?_, ?_⟩
  · intro interval s h
    simp [refreshDelay, h]
  · intro interval s h
    simp [refreshDelay, h]
  · intro h
    simp [freshState] at h
  · intro h
    simp [freshState] at h

/-- Witness for C6 (amended) at concrete states: the fresh state waits
30 s, a state with `lastchange` set waits the interval, and the invariant
holds after a concrete cycle. -/
theorem C6_delay_iff_lastchange_witness :
    refreshDelay 600 freshState = 30
    ∧ refreshDelay 600 stateW = 600
    ∧ InstallImpliesChange (routineCycle freshState cycleInpCE) :=
  ⟨C6_delay_iff_lastchange.1 600 freshState rfl,
   C6_delay_iff_lastchange.2.1 600 stateW (by decide),
   C6_delay_iff_lastchange.2.2.1 freshState cycleInpCE
     C6_delay_iff_lastchange.2.2.2⟩

/-- The key-matching loop of the SSH public-key callback (stayrtr.go lines
683-693): skip empty lines, succeed when a line starts with the pattern
"<key type> <base64 key>". The source tracks success in the misnamed
boolean `noKeys`; the loop's net effect is this match test. -/
def keyMatchLoop (pat : String) : List String → Bool
  | [] => false
  | k :: rest =>
    if k == "" then keyMatchLoop pat rest
    else if k.startsWith pat then true
    else keyMatchLoop pat rest

/-- `sshConfig.PublicKeyCallback` (stayrtr.go lines 679-706): `true` means
a `Permissions` value is returned (connection accepted), `false` means an
error is returned (connection rejected). With bypass disabled the
authorized-keys lines are scanned; with bypass enabled every key is
accepted. -/
def publicKeyCallback (bypass : Bool) (sshClientKeys : List String)
    (keyType keyB64 : String) : Bool :=
  if !bypass then keyMatchLoop (keyType ++ " " ++ keyB64) sshClientKeys
  else true

lemma keyMatchLoop_iff (pat : String) (l : List String) :
    keyMatchLoop pat l = true ↔ ∃ k ∈ l, k ≠ "" ∧ k.startsWith pat = true := by
  induction l with
  | nil => simp [keyMatchLoop]
  | cons k rest ih =>
    by_cases hk : k = ""
    · subst hk
      constructor
      · intro h
        rw [show keyMatchLoop pat ("" :: rest) = keyMatchLoop pat rest from by
          simp [keyMatchLoop]] at h
        obtain ⟨w, hw, hne, hsw⟩ := ih.mp h
        exact ⟨w, List.mem_cons_of_mem _ hw, hne, hsw⟩
      · rintro ⟨w, hw, hne, hsw⟩
        rcases List.mem_cons.mp hw with rfl | hw2
        · exact absurd rfl hne
        · rw [show keyMatchLoop pat ("" :: rest) = keyMatchLoop pat rest from by
            simp [keyMatchLoop]]
          exact ih.mpr ⟨w, hw2, hne, hsw⟩
    · by_cases hs : k.startsWith pat = true
      · constructor
        · intro _
          exact ⟨k, List.mem_cons_self _ _, hk, hs⟩
        · intro _
          simp [keyMatchLoop, hk, hs]
      · constructor
        · intro h
          rw [show keyMatchLoop pat (k :: rest) = keyMatchLoop pat rest from by
            simp [keyMatchLoop, hk, hs]] at h
          obtain ⟨w, hw, hne, hsw⟩ := ih.mp h
          exact ⟨w, List.mem_cons_of_mem _ hw, hne, hsw⟩
        · rintro ⟨w, hw, hne, hsw⟩
          rcases List.mem_cons.mp hw with rfl | hw2
          · exact absurd hsw hs
          · rw [show keyMatchLoop pat (k :: rest) = keyMatchLoop pat rest from by
              simp [keyMatchLoop, hk, hs]]
            exact ih.mpr ⟨w, hw2, hne, hsw⟩

/-- C8: with public-key auth enabled and bypass disabled, the callback
accepts a connection iff some non-empty authorized-keys line starts with
"<key type> <base64 key>" of the offered key; with no match it rejects,
and with bypass enabled every key is accepted. -/
theorem C8_pubkey_accept_iff (bypass : Bool) (keys : List String)
    (keyType keyB64 : String) :
    publicKeyCallback bypass keys keyType keyB64 = true ↔
      (bypass = true ∨ ∃ k ∈ keys, k ≠ ""
        ∧ k.startsWith (keyType ++ " " ++ keyB64) = true) := by
  cases bypass with
  | true => simp [publicKeyCallback]
  | false => simp [publicKeyCallback, keyMatchLoop_iff]

/-- `AppVersion` (stayrtr.go lines 43-46) with empty build metadata. -/
def AppVersion : String := "StayRTR " ++ "" ++ " " ++ ""

/-- The observable action taken by the prologue of `run`. -/
inductive StartAction where
  | exitCode (code : Nat) (msg : String)
  | proceed
deriving DecidableEq, Repr

/-- The prologue of `run` (stayrtr.go lines 505-514): after flag parsing,
any positional argument prints a diagnostic naming the offending arguments
and exits with status 2. Only then is the version flag examined, and then
the rest of startup runs. -/
def runStart (progName : String) (positional : List String)
    (versionFlag : Bool) : StartAction :=
  if positional.length > 0 then
    .exitCode 2 (progName ++ ": illegal positional argument(s) provided (\""
      ++ String.intercalate (" ") positional ++ "\") - did you mean to provide a flag?")
  else if versionFlag then .exitCode 0 AppVersion
  else .proceed

/-- C9: a command line with any positional argument makes the process exit
with status 2 and a diagnostic naming the offending arguments, regardless
of other flags, before any other work. -/
theorem C9_positional_args_exit2 (progName : String) (positional : List String)
    (versionFlag : Bool) (h : positional ≠ []) :
    runStart progName positional versionFlag =
      .exitCode 2 (progName ++ ": illegal positional argument(s) provided (\""
        ++ String.intercalate (" ") positional
        ++ "\") - did you mean to provide a flag?") := by
  have hl : positional.length > 0 := List.length_pos.mpr h
  simp [runStart, hl]

/-- Witness for C9 at a concrete command line. -/
theorem C9_positional_args_exit2_witness :
    runStart ("stayrtr") (["extra"]) true =
      .exitCode 2 ("stayrtr" ++ ": illegal positional argument(s) provided (\""
        ++ String.intercalate (" ") (["extra"])
        ++ "\") - did you mean to provide a flag?") :=
  C9_positional_args_exit2 "stayrtr" ["extra"] true (by decide)
